import Mathlib

/-!
Verification of the eager-execution context core
(`tensorflow/python/eager/context.py`).

The Python source is shallowly embedded: the mutable `Context` object,
its per-thread state, the module-level `_device_parsing_cache`, and the
native engine (`pywrap_tensorflow`) become explicit state records that
are threaded through pure Lean functions; Python exceptions become
`Except` / explicit error results.  The `DeviceSpec` class lives in
`tensorflow/python/framework/device.py`, which is not part of this
repository snapshot; it is modelled from the specification text
(a five-field structured descriptor with field-wise merge).
-/

namespace EagerCtx

/-- Error taxonomy.  Python raises `ValueError` for malformed device
names, `RuntimeError` for post-initialization mutation of startup-only
knobs and for unbalanced device scopes, `AssertionError` for the
staged-server-definition conflict, and propagates engine failures. -/
inductive DevErr where
  | invalidDeviceName (s : String)
  | engineFailure (code : Nat)
  | conflictingServerConfig
  | devicesAlreadySet
  | noDevices
  | unbalancedScope
  | alreadyInitialized
  deriving DecidableEq, Repr

/-- Modelled from the spec: structured device descriptor
(job/replica/task/device-type/device-index); `device.py` is not in the
repository snapshot.  Absent fields are `none`. -/
structure DeviceSpec where
  job : Option String
  replica : Option Nat
  task : Option Nat
  deviceType : Option String
  deviceIndex : Option Nat
  deriving DecidableEq, Repr

/-- The fully-empty device spec (`DeviceSpec.from_string("")`). -/
def DeviceSpec.empty : DeviceSpec :=
  { job := none, replica := none, task := none,
    deviceType := none, deviceIndex := none }

/-- Split a character list at every occurrence of `sep` (the character
analogue of splitting a device string on `/` or `:`; written over
`List Char` so that it reduces inside the kernel). -/
def chSplit (sep : Char) : List Char → List (List Char)
  | [] => [[]]
  | x :: xs =>
    match chSplit sep xs with
    | [] => [[]]
    | h :: t => if x = sep then [] :: h :: t else (x :: h) :: t

/-- Accumulate a decimal numeral. -/
def digitsAux : List Char → Nat → Option Nat
  | [], acc => some acc
  | c :: cs, acc =>
    if c.isDigit then digitsAux cs (acc * 10 + (c.toNat - 48)) else none

/-- Parse a nonempty all-digit character list as a natural number. -/
def digitsToNat? (l : List Char) : Option Nat :=
  match l with
  | [] => none
  | _ => digitsAux l 0

/-- Modelled from the spec: one `/`-separated component of a device
string updates the corresponding field of the spec being parsed
(`job:<name>`, `replica:<n>`, `task:<n>`, `device:<TYPE>:<n or *>`, or
the `<TYPE>:<n>` shorthand); anything else is a malformed device
name. -/
def applyComponent (d : DeviceSpec) (comp : List Char) : Except DevErr DeviceSpec :=
  match chSplit ':' comp with
  | [k, v] =>
    if String.mk k = "job" then .ok { d with job := some (String.mk v) }
    else if String.mk k = "replica" then
      match digitsToNat? v with
      | some n => .ok { d with replica := some n }
      | none => .error (.invalidDeviceName (String.mk comp))
    else if String.mk k = "task" then
      match digitsToNat? v with
      | some n => .ok { d with task := some n }
      | none => .error (.invalidDeviceName (String.mk comp))
    else
      match digitsToNat? v with
      | some n =>
        .ok { d with deviceType := some (String.mk k), deviceIndex := some n }
      | none => .error (.invalidDeviceName (String.mk comp))
  | [k, ty, ix] =>
    if String.mk k = "device" then
      if ix = ['*'] then
        .ok { d with deviceType := some (String.mk ty), deviceIndex := none }
      else
        match digitsToNat? ix with
        | some n =>
          .ok { d with deviceType := some (String.mk ty), deviceIndex := some n }
        | none => .error (.invalidDeviceName (String.mk comp))
    else .error (.invalidDeviceName (String.mk comp))
  | _ => .error (.invalidDeviceName (String.mk comp))

/-- Modelled from the spec: parse a (possibly partial) device placement
string into a `DeviceSpec`; the empty string parses to the fully-empty
spec, a malformed string is an `InvalidDeviceNameError`. -/
def DeviceSpec.fromString (s : String) : Except DevErr DeviceSpec :=
  (chSplit '/' s.data).foldlM
    (fun d comp => if comp = [] then pure d else applyComponent d comp)
    DeviceSpec.empty

/-- Modelled from the spec: fields present in `dev` override `self`,
absent fields keep `self`'s value (`DeviceSpec.merge_from`). -/
def DeviceSpec.mergeFrom (self dev : DeviceSpec) : DeviceSpec :=
  { job := dev.job <|> self.job,
    replica := dev.replica <|> self.replica,
    task := dev.task <|> self.task,
    deviceType := dev.deviceType <|> self.deviceType,
    deviceIndex := dev.deviceIndex <|> self.deviceIndex }

/-- Modelled from the spec: canonical rendering of a device spec,
present fields only (`DeviceSpec.to_string`); the empty spec renders as
the empty string. -/
def DeviceSpec.render (d : DeviceSpec) : String :=
  (match d.job with
   | some j => "/job:" ++ j
   | none => "") ++
  (match d.replica with
   | some r => "/replica:" ++ Nat.repr r
   | none => "") ++
  (match d.task with
   | some t => "/task:" ++ Nat.repr t
   | none => "") ++
  (match d.deviceType with
   | some ty =>
     "/device:" ++ ty ++ ":" ++
       (match d.deviceIndex with
        | some i => Nat.repr i
        | none => "*")
   | none => "")

/-- The `graph_options.optimizer_options.global_jit_level` enum of
`config_pb2` (`DEFAULT`, `OFF`, `ON_1`, `ON_2`). -/
inductive JitLevel where
  | defaultLevel
  | off
  | on1
  | on2
  deriving DecidableEq, Repr

/-- The `rewriter_config_pb2.RewriterConfig` tri-state toggle
(`DEFAULT`, `ON`, `OFF`). -/
inductive RewriterToggle where
  | defaultT
  | on
  | off
  deriving DecidableEq, Repr

/-- Fields of `config.gpu_options` touched by the context.  The Python
memory fraction is a float; it is stored and compared but never
computed with, so it is carried here as an opaque integer value. -/
structure GPUOptions where
  perProcessGpuMemoryFraction : Int
  allowGrowth : Bool
  deriving DecidableEq, Repr

/-- Fields of `config.graph_options.rewrite_options` that
`Context.config` writes (twelve named toggles, two booleans and
`min_graph_nodes`). -/
structure RewriteOptions where
  layoutOptimizer : RewriterToggle
  constantFolding : RewriterToggle
  shapeOptimization : RewriterToggle
  remapping : RewriterToggle
  arithmeticOptimization : RewriterToggle
  dependencyOptimization : RewriterToggle
  loopOptimization : RewriterToggle
  functionOptimization : RewriterToggle
  debugStripper : RewriterToggle
  disableModelPruning : Bool
  scopedAllocatorOptimization : RewriterToggle
  pinToHostOptimization : RewriterToggle
  implementationSelector : RewriterToggle
  disableMetaOptimizer : Bool
  minGraphNodes : Int
  deriving DecidableEq, Repr

/-- Fields of `config.graph_options` touched by the context. -/
structure GraphOptions where
  globalJitLevel : JitLevel
  rewriteOptions : RewriteOptions
  deriving DecidableEq, Repr

/-- The slice of `config_pb2.ConfigProto` that `Context.config` reads
and writes. -/
structure ConfigProto where
  gpuOptions : GPUOptions
  graphOptions : GraphOptions
  intraOpParallelismThreads : Int
  interOpParallelismThreads : Int
  allowSoftPlacement : Bool
  logDevicePlacement : Bool
  deriving DecidableEq, Repr

/-- Proto defaults: numeric fields zero, booleans false, enums at their
`DEFAULT` value — the result of `config_pb2.ConfigProto()`. -/
def defaultConfig : ConfigProto :=
  { gpuOptions := { perProcessGpuMemoryFraction := 0, allowGrowth := false },
    graphOptions :=
      { globalJitLevel := .defaultLevel,
        rewriteOptions :=
          { layoutOptimizer := .defaultT, constantFolding := .defaultT,
            shapeOptimization := .defaultT, remapping := .defaultT,
            arithmeticOptimization := .defaultT,
            dependencyOptimization := .defaultT,
            loopOptimization := .defaultT, functionOptimization := .defaultT,
            debugStripper := .defaultT, disableModelPruning := false,
            scopedAllocatorOptimization := .defaultT,
            pinToHostOptimization := .defaultT,
            implementationSelector := .defaultT,
            disableMetaOptimizer := false, minGraphNodes := 0 } },
    intraOpParallelismThreads := 0,
    interOpParallelismThreads := 0,
    allowSoftPlacement := false,
    logDevicePlacement := false }

/-- The `_optimizer_experimental_options` staging dict: each entry is
absent until `set_optimizer_experimental_options` stores it. -/
structure OptimizerOpts where
  layoutOptimizer : Option Bool
  constantFolding : Option Bool
  shapeOptimization : Option Bool
  remapping : Option Bool
  arithmeticOptimization : Option Bool
  dependencyOptimization : Option Bool
  loopOptimization : Option Bool
  functionOptimization : Option Bool
  debugStripper : Option Bool
  disableModelPruning : Option Bool
  scopedAllocatorOptimization : Option Bool
  pinToHostOptimization : Option Bool
  implementationSelector : Option Bool
  disableMetaOptimizer : Option Bool
  minGraphNodes : Option Int
  deriving DecidableEq, Repr

/-- No optimizer option staged (the dict starts empty). -/
def noOpts : OptimizerOpts :=
  { layoutOptimizer := none, constantFolding := none,
    shapeOptimization := none, remapping := none,
    arithmeticOptimization := none, dependencyOptimization := none,
    loopOptimization := none, functionOptimization := none,
    debugStripper := none, disableModelPruning := none,
    scopedAllocatorOptimization := none, pinToHostOptimization := none,
    implementationSelector := none, disableMetaOptimizer := none,
    minGraphNodes := none }

/-- One engine (`pywrap_tensorflow`) entry point invoked during lazy
initialization; recorded in the call trace so the theorems can observe
which boundary calls were issued. -/
inductive EngineCall where
  | newContext
  | setServerDef
  | enableCollectiveOps
  | listDevices
  deriving DecidableEq, Repr

/-- Decidable equality for `Except`, needed so that engine outcomes and
whole states can be compared by evaluation in witnesses. -/
instance exceptDecEq {ε α : Type} [DecidableEq ε] [DecidableEq α] :
    DecidableEq (Except ε α) := fun a b =>
  match a, b with
  | .ok x, .ok y =>
    if h : x = y then isTrue (by rw [h])
    else isFalse (fun hc => h (by injection hc))
  | .ok _, .error _ => isFalse (fun hc => by injection hc)
  | .error _, .ok _ => isFalse (fun hc => by injection hc)
  | .error x, .error y =>
    if h : x = y then isTrue (by rw [h])
    else isFalse (fun hc => h (by injection hc))

/-- The opaque execution-engine boundary: each operation either returns
its result or raises.  The context only forwards to these. -/
structure Engine where
  newContext : Except DevErr Nat
  listDevices : Except DevErr (List (String × String))
  setServerDef : Except DevErr Unit
  enableCollectiveOps : Except DevErr Unit
  deriving DecidableEq, Repr

/-- Process-wide fields of the `Context` object (everything that is
not thread-local): the lazily realized handle, the enumerated device
list, the staged server definitions, the base config snapshot and the
staged runtime deltas.  `calls` is a ghost trace of engine calls made,
used only to observe the boundary in theorem statements. -/
structure CtxState where
  contextHandle : Option Nat
  contextDevices : Option (List String)
  numGpus : Nat
  serverDef : Option Nat
  collectiveOpsServerDef : Option Nat
  baseConfig : Option ConfigProto
  gpuPerProcessMemoryFraction : Option Int
  gpuPerProcessMemoryGrowth : Option Bool
  optimizerJit : Option Bool
  intraOpParallelismThreads : Option Int
  interOpParallelismThreads : Option Int
  softDevicePlacement : Option Bool
  logDevicePlacement : Option Bool
  optimizerExperimentalOptions : OptimizerOpts
  calls : List EngineCall
  deriving DecidableEq, Repr

/-- Modelled from the spec: `pydev.canonical_name` (from the absent
`device.py`) maps an enumerated device name to its canonical form; the
engine already reports canonical names, so it is the identity here. -/
def canonicalName (s : String) : String := s

/-- `Context._initialize_devices`: store an empty device list, ask the
engine for the device list, then record canonical names and the GPU
count.  Note the source assigns `self._context_devices = []` before the
engine call, so a failing enumeration leaves the empty list behind; the
error carries the mutated state. -/
def initDevices (eng : Engine) (c : CtxState) : Except (DevErr × CtxState) CtxState :=
  let c1 := { c with contextDevices := some [],
                     calls := c.calls ++ [EngineCall.listDevices] }
  match eng.listDevices with
  | .error e => .error (e, c1)
  | .ok ds =>
    .ok { c1 with
            contextDevices := some (ds.map (fun p => canonicalName p.1)),
            numGpus := (ds.filter (fun p => p.2 = "GPU")).length }

/-- `Context._initialize_handle_and_devices` (the body that runs under
`_initialize_lock`): return early if the handle exists, assert the
device list is unset, open the handle (assigning `_context_handle`
immediately), assert the two staged server definitions do not
conflict, apply the remote server definition (taking precedence) or
else the collective-ops one, then enumerate devices. -/
def initHandleAndDevices (eng : Engine) (c : CtxState) :
    Except (DevErr × CtxState) CtxState :=
  if c.contextHandle.isSome then .ok c
  else if c.contextDevices.isSome then .error (.devicesAlreadySet, c)
  else
    match eng.newContext with
    | .error e => .error (e, { c with calls := c.calls ++ [EngineCall.newContext] })
    | .ok h =>
      let c1 := { c with contextHandle := some h,
                         calls := c.calls ++ [EngineCall.newContext] }
      if c1.serverDef.isSome && c1.collectiveOpsServerDef.isSome then
        .error (.conflictingServerConfig, c1)
      else if c1.serverDef.isSome then
        let c2 := { c1 with calls := c1.calls ++ [EngineCall.setServerDef] }
        match eng.setServerDef with
        | .error e => .error (e, c2)
        | .ok _ => initDevices eng c2
      else if c1.collectiveOpsServerDef.isSome then
        let c2 := { c1 with calls := c1.calls ++ [EngineCall.enableCollectiveOps] }
        match eng.enableCollectiveOps with
        | .error e => .error (e, c2)
        | .ok _ => initDevices eng c2
      else initDevices eng c1

/-- A Python `DeviceSpec` object: its structural value plus an `id`
modelling CPython object identity, so that the source's
`device_spec is not new_device_spec` check (an identity test, not a
value test) can be expressed.  Fresh allocations (`from_string`,
`copy.copy`) get fresh ids; `merge_from` mutates in place and keeps the
id. -/
structure SpecObj where
  id : Nat
  spec : DeviceSpec
  deriving DecidableEq, Repr

/-- The `_ThreadLocalData` fields that the modelled operations touch:
the installed device name and spec object, the eager flag, and the
cached per-thread function-call options (tracked only as
present/absent, since mutators merely clear it). -/
structure ThreadState where
  deviceName : String
  deviceSpec : SpecObj
  isEager : Bool
  functionCallOptions : Option Unit
  deriving DecidableEq, Repr

/-- Key of the module-level `_device_parsing_cache`:
`(old_device_name, name)` where `name` is the requested device
(possibly `None`). -/
def CacheKey : Type := String × Option String
deriving instance DecidableEq, Repr for CacheKey

/-- The whole mutable world one thread observes: its thread-local
state, the process-wide `_device_parsing_cache`, the singleton
`Context` fields, and an allocation counter for fresh object ids. -/
structure GlobalState where
  tl : ThreadState
  cache : List (CacheKey × (String × SpecObj))
  nextId : Nat
  ctx : CtxState
  deriving DecidableEq, Repr

/-- Dictionary lookup in the device-parsing cache (first binding for
the key wins; insertions prepend). -/
def cacheLookup (l : List (CacheKey × (String × SpecObj))) (k : CacheKey) :
    Option (String × SpecObj) :=
  match l with
  | [] => none
  | (k', v) :: t => if k' = k then some v else cacheLookup t k

/-- Base-spec acquisition inside `Context.device`'s cache-miss path:
when a device name is installed, the base is a `copy.copy` of the
installed spec (a fresh object with the same value); otherwise lazy
initialization is forced and the base is parsed from the first
enumerated device.  Errors carry the state as mutated so far. -/
def acquireBase (eng : Engine) (g : GlobalState) :
    Except (DevErr × GlobalState) (SpecObj × GlobalState) :=
  if g.tl.deviceName ≠ "" then
    .ok ({ id := g.nextId, spec := g.tl.deviceSpec.spec },
         { g with nextId := g.nextId + 1 })
  else
    match initHandleAndDevices eng g.ctx with
    | .error (e, c') => .error (e, { g with ctx := c' })
    | .ok c' =>
      match c'.contextDevices with
      | some (d0 :: _) =>
        match DeviceSpec.fromString d0 with
        | .error e => .error (e, { g with ctx := c' })
        | .ok sp =>
          .ok ({ id := g.nextId, spec := sp },
               { g with ctx := c', nextId := g.nextId + 1 })
      | _ => .error (.noDevices, { g with ctx := c' })

/-- The resolution half of `Context.device` (source lines 569-596): on
a cache hit return the cached `(name, spec)` pair; on a miss parse the
requested name (`None` parses as the empty string, yielding the
fully-empty spec), acquire the base spec when a partial name was
requested, merge the parsed partial spec onto the base in place (the
merged object keeps the base copy's identity), render the merged name,
and insert the computed pair into the cache under the original
`(old name, requested name)` key. -/
def resolveInstall (eng : Engine) (g : GlobalState) (name : Option String) :
    Except (DevErr × GlobalState) ((String × SpecObj) × GlobalState) :=
  match cacheLookup g.cache (g.tl.deviceName, name) with
  | some v => .ok (v, g)
  | none =>
    match name with
    | none =>
      match DeviceSpec.fromString "" with
      | .error e => .error (e, g)
      | .ok sp =>
        .ok ((DeviceSpec.render sp, { id := g.nextId, spec := sp }),
             { g with
                 nextId := g.nextId + 1,
                 cache := ((g.tl.deviceName, name),
                           (DeviceSpec.render sp,
                            { id := g.nextId, spec := sp })) :: g.cache })
    | some s =>
      match DeviceSpec.fromString s with
      | .error e => .error (e, g)
      | .ok requested =>
        match acquireBase eng g with
        | .error eg => .error eg
        | .ok (baseObj, g') =>
          .ok ((DeviceSpec.render (DeviceSpec.mergeFrom baseObj.spec requested),
                { id := baseObj.id,
                  spec := DeviceSpec.mergeFrom baseObj.spec requested }),
               { g' with
                   cache := ((g.tl.deviceName, name),
                             (DeviceSpec.render
                                (DeviceSpec.mergeFrom baseObj.spec requested),
                              { id := baseObj.id,
                                spec := DeviceSpec.mergeFrom baseObj.spec
                                  requested })) :: g'.cache })

/-- What the caller's scoped body did: returned normally or raised. -/
inductive BodyOutcome (ε : Type) where
  | normal
  | raised (e : ε)

/-- Result of running a device scope to completion: the body returned
normally, the body's exception propagated after restore, or the scope
machinery itself raised (resolution failure before entry, or the
`RuntimeError` for improper nesting at exit). -/
inductive ScopeResult (ε : Type) where
  | normal (g : GlobalState)
  | bodyRaised (e : ε) (g : GlobalState)
  | scopeError (e : DevErr) (g : GlobalState)

/-- Install a resolved `(name, spec)` pair into the thread-local state
(source lines 599-600). -/
def installDev (g : GlobalState) (nm : String) (obj : SpecObj) : GlobalState :=
  { g with tl := { g.tl with deviceName := nm, deviceSpec := obj } }

/-- Restore the captured prior `(name, spec)` pair into the current
state (the `finally` block, source lines 605-606). -/
def restoreDev (gNow gOld : GlobalState) : GlobalState :=
  { gNow with tl := { gNow.tl with deviceName := gOld.tl.deviceName,
                                   deviceSpec := gOld.tl.deviceSpec } }

/-- The whole of `Context.device` as a scoped-execution combinator:
capture the old pair, resolve, install, run the body, and in the
`finally` block check that the installed spec is still the exact object
this scope installed — if not, raise the unbalanced-scope
`RuntimeError` (superseding any body exception, as a raise inside
`finally` does); otherwise restore the old pair and let the body's
outcome through. -/
def deviceScope {ε : Type} (eng : Engine) (g : GlobalState) (name : Option String)
    (body : GlobalState → BodyOutcome ε × GlobalState) : ScopeResult ε :=
  match resolveInstall eng g name with
  | .error (e, gBad) => .scopeError e gBad
  | .ok ((newName, newObj), g1) =>
    let p := body (installDev g1 newName newObj)
    if p.2.tl.deviceSpec.id = newObj.id then
      match p.1 with
      | .normal => .normal (restoreDev p.2 g)
      | .raised e => .bodyRaised e (restoreDev p.2 g)
    else .scopeError .unbalancedScope p.2

/-- Tri-state rewriter toggle application (`rewriter_toggle` inside
`Context.config`): absent leaves the field, `True` writes `ON`,
`False` writes `OFF`. -/
def rewriterToggle (cur : RewriterToggle) (staged : Option Bool) : RewriterToggle :=
  match staged with
  | none => cur
  | some b => if b then .on else .off

/-- Application of the staged optimizer options onto
`config.graph_options.rewrite_options` (the `rewriter_toggle` /
`rewriter_bool` calls and `min_graph_nodes`, source lines 692-708). -/
def applyRewrite (ro : RewriteOptions) (o : OptimizerOpts) : RewriteOptions :=
  { layoutOptimizer := rewriterToggle ro.layoutOptimizer o.layoutOptimizer,
    constantFolding := rewriterToggle ro.constantFolding o.constantFolding,
    shapeOptimization := rewriterToggle ro.shapeOptimization o.shapeOptimization,
    remapping := rewriterToggle ro.remapping o.remapping,
    arithmeticOptimization :=
      rewriterToggle ro.arithmeticOptimization o.arithmeticOptimization,
    dependencyOptimization :=
      rewriterToggle ro.dependencyOptimization o.dependencyOptimization,
    loopOptimization := rewriterToggle ro.loopOptimization o.loopOptimization,
    functionOptimization :=
      rewriterToggle ro.functionOptimization o.functionOptimization,
    debugStripper := rewriterToggle ro.debugStripper o.debugStripper,
    disableModelPruning := o.disableModelPruning.getD ro.disableModelPruning,
    scopedAllocatorOptimization :=
      rewriterToggle ro.scopedAllocatorOptimization o.scopedAllocatorOptimization,
    pinToHostOptimization :=
      rewriterToggle ro.pinToHostOptimization o.pinToHostOptimization,
    implementationSelector :=
      rewriterToggle ro.implementationSelector o.implementationSelector,
    disableMetaOptimizer := o.disableMetaOptimizer.getD ro.disableMetaOptimizer,
    minGraphNodes := o.minGraphNodes.getD ro.minGraphNodes }

/-- The `Context.config` property (source lines 644-710): start from
the base config snapshot (or a fresh default proto), then overlay each
staged delta that has been set; unset soft placement defaults to the
thread's eager flag.  Each field's net value after the source's
sequence of conditional assignments. -/
def contextConfig (c : CtxState) (isEager : Bool) : ConfigProto :=
  let base := c.baseConfig.getD defaultConfig
  { gpuOptions :=
      { perProcessGpuMemoryFraction :=
          c.gpuPerProcessMemoryFraction.getD
            base.gpuOptions.perProcessGpuMemoryFraction,
        allowGrowth :=
          c.gpuPerProcessMemoryGrowth.getD base.gpuOptions.allowGrowth },
    graphOptions :=
      { globalJitLevel :=
          match c.optimizerJit with
          | some b => if b then JitLevel.on1 else JitLevel.off
          | none => base.graphOptions.globalJitLevel,
        rewriteOptions :=
          applyRewrite base.graphOptions.rewriteOptions
            c.optimizerExperimentalOptions },
    intraOpParallelismThreads :=
      c.intraOpParallelismThreads.getD base.intraOpParallelismThreads,
    interOpParallelismThreads :=
      c.interOpParallelismThreads.getD base.interOpParallelismThreads,
    allowSoftPlacement := c.softDevicePlacement.getD isEager,
    logDevicePlacement :=
      c.logDevicePlacement.getD base.logDevicePlacement }

/-- `Context.config` as observed by the calling thread
(`allow_soft_placement` falls back to `self.executing_eagerly()`). -/
def configOf (g : GlobalState) : ConfigProto :=
  contextConfig g.ctx g.tl.isEager

/-- `gpu_per_process_memory_fraction` setter: a `RuntimeError` once the
handle exists (raised before any mutation), otherwise stage the
delta. -/
def setGpuPerProcessMemoryFraction (g : GlobalState) (f : Int) :
    Except DevErr GlobalState :=
  if g.ctx.contextHandle.isSome then .error .alreadyInitialized
  else .ok { g with ctx := { g.ctx with gpuPerProcessMemoryFraction := some f } }

/-- `gpu_per_process_memory_growth` setter: a `RuntimeError` once the
handle exists, otherwise stage the delta. -/
def setGpuPerProcessMemoryGrowth (g : GlobalState) (b : Bool) :
    Except DevErr GlobalState :=
  if g.ctx.contextHandle.isSome then .error .alreadyInitialized
  else .ok { g with ctx := { g.ctx with gpuPerProcessMemoryGrowth := some b } }

/-- `intra_op_parallelism_threads` setter: a `RuntimeError` once the
handle exists, otherwise stage the delta. -/
def setIntraOpParallelismThreads (g : GlobalState) (n : Int) :
    Except DevErr GlobalState :=
  if g.ctx.contextHandle.isSome then .error .alreadyInitialized
  else .ok { g with ctx := { g.ctx with intraOpParallelismThreads := some n } }

/-- `inter_op_parallelism_threads` setter: a `RuntimeError` once the
handle exists, otherwise stage the delta. -/
def setInterOpParallelismThreads (g : GlobalState) (n : Int) :
    Except DevErr GlobalState :=
  if g.ctx.contextHandle.isSome then .error .alreadyInitialized
  else .ok { g with ctx := { g.ctx with interOpParallelismThreads := some n } }

/-- `log_device_placement` setter: a `RuntimeError` once the handle
exists; otherwise stage the delta and invalidate the thread's cached
function-call options. -/
def setLogDevicePlacement (g : GlobalState) (b : Bool) :
    Except DevErr GlobalState :=
  if g.ctx.contextHandle.isSome then .error .alreadyInitialized
  else .ok { g with
               ctx := { g.ctx with logDevicePlacement := some b },
               tl := { g.tl with functionCallOptions := none } }

/-- An eager tensor as the bounded cache sees it: its element count
(what `value._num_elements()` returns) and an opaque payload that
distinguishes distinct values. -/
structure Tensor where
  numElements : Nat
  payload : Nat
  deriving DecidableEq, Repr

/-- `_EagerTensorCache`: an ordered mapping (`OrderedDict`) plus the
capacity and admission-threshold parameters. -/
structure EagerTensorCache where
  data : List (Nat × Tensor)
  maxItems : Nat
  maxTensorSize : Nat
  deriving DecidableEq, Repr

/-- A fresh cache with the constructor defaults
(`max_items=256`, `max_tensor_size=10000`). -/
def EagerTensorCache.fresh : EagerTensorCache :=
  { data := [], maxItems := 256, maxTensorSize := 10000 }

/-- `OrderedDict` assignment `self._data[key] = value`: replace in
place when the key exists (keeping its position), otherwise append at
the end. -/
def odSet (l : List (Nat × Tensor)) (k : Nat) (v : Tensor) : List (Nat × Tensor) :=
  match l with
  | [] => [(k, v)]
  | (k', v') :: t => if k' = k then (k, v) :: t else (k', v') :: odSet t k v

/-- `_EagerTensorCache.put`: silently drop values over the admission
threshold; otherwise assign, and if the size now exceeds the capacity
evict the single front (oldest-inserted) entry
(`popitem(last=False)`). -/
def EagerTensorCache.put (c : EagerTensorCache) (k : Nat) (v : Tensor) :
    EagerTensorCache :=
  if v.numElements > c.maxTensorSize then c
  else
    let d := odSet c.data k v
    { c with data := if d.length > c.maxItems then d.drop 1 else d }

/-- `_EagerTensorCache.get`: the stored value, or absent. -/
def EagerTensorCache.get (c : EagerTensorCache) (k : Nat) : Option Tensor :=
  match c.data.find? (fun p => p.1 == k) with
  | some p => some p.2
  | none => none

/-- An engine whose calls all succeed, reporting one CPU device. -/
def engOk : Engine :=
  { newContext := .ok 1,
    listDevices := .ok [("/job:localhost/replica:0/task:0/device:CPU:0", "CPU")],
    setServerDef := .ok (),
    enableCollectiveOps := .ok () }

/-- A freshly constructed `Context`: no handle, no devices, nothing
staged. -/
def ctx0 : CtxState :=
  { contextHandle := none, contextDevices := none, numGpus := 0,
    serverDef := none, collectiveOpsServerDef := none, baseConfig := none,
    gpuPerProcessMemoryFraction := none, gpuPerProcessMemoryGrowth := none,
    optimizerJit := none, intraOpParallelismThreads := none,
    interOpParallelismThreads := none, softDevicePlacement := none,
    logDevicePlacement := none, optimizerExperimentalOptions := noOpts,
    calls := [] }

/-- Fresh thread-local state: empty device name, the starting (empty)
device spec, eager mode. -/
def tl0 : ThreadState :=
  { deviceName := "", deviceSpec := { id := 0, spec := DeviceSpec.empty },
    isEager := true, functionCallOptions := none }

/-- A fresh world: fresh thread state, empty parsing cache, fresh
context. -/
def g0 : GlobalState := { tl := tl0, cache := [], nextId := 1, ctx := ctx0 }

/-- An engine whose handle creation succeeds but whose device
enumeration fails. -/
def engEnumFail : Engine :=
  { newContext := .ok 7,
    listDevices := .error (.engineFailure 3),
    setServerDef := .ok (),
    enableCollectiveOps := .ok () }

/-- The context state left behind when device enumeration fails right
after the handle was opened: handle published, device list empty. -/
def ctxHalf : CtxState :=
  { ctx0 with contextHandle := some 7, contextDevices := some [],
              calls := [EngineCall.newContext, EngineCall.listDevices] }

/-- C2 counterexample: with an engine whose device enumeration fails,
lazy initialization propagates the enumeration error but the context is
left with the handle already published (it is assigned before
enumeration) and an empty device list — precisely the half-published
state the claim says cannot happen. -/
theorem init_half_publish_counterexample :
    initHandleAndDevices engEnumFail ctx0 = .error (.engineFailure 3, ctxHalf) ∧
    ctxHalf.contextHandle = some 7 ∧
    ctxHalf.contextDevices = some [] ∧
    ctxHalf.contextHandle ≠ none := by decide

/-- C2 (amended): if device enumeration fails during lazy
initialization, the error propagates unchanged to the caller, but the
engine handle has already been published (it is assigned before
enumeration runs), so the context is left with a realized handle and an
empty device list rather than an unpublished handle. -/
theorem init_enum_failure_propagates (eng : Engine) (c : CtxState) (h : Nat)
    (err : DevErr)
    (hh : c.contextHandle = none) (hd : c.contextDevices = none)
    (hs : c.serverDef = none) (hc : c.collectiveOpsServerDef = none)
    (hnc : eng.newContext = .ok h) (hl : eng.listDevices = .error err) :
    ∃ c', initHandleAndDevices eng c = .error (err, c') ∧
      c'.contextHandle = some h ∧ c'.contextDevices = some [] := by
  simp only [initHandleAndDevices, initDevices, hh, hd, hs, hc, hnc, hl,
    Option.isSome_none, Bool.false_eq_true, if_false, Option.isSome_some,
    Bool.and_self, if_true]
  exact ⟨_, rfl, rfl, rfl⟩

/-- C2 witness: the amended statement at the concrete failing engine. -/
theorem init_enum_failure_propagates_witness :
    ∃ c', initHandleAndDevices engEnumFail ctx0 = .error (.engineFailure 3, c') ∧
      c'.contextHandle = some 7 ∧ c'.contextDevices = some [] :=
  init_enum_failure_propagates engEnumFail ctx0 7 (.engineFailure 3)
    (by decide) (by decide) (by decide) (by decide) (by decide) (by decide)

/-- C9: if both a remote server definition and a collective-ops server
definition are staged when lazy initialization runs (and handle
creation itself succeeds), initialization fails with the
conflicting-server-config error; otherwise at most one of the two is
applied to the new handle, the remote server definition taking
precedence over the collective-ops one. -/
theorem init_server_def_exclusive (eng : Engine) (c : CtxState) (h : Nat)
    (ds : List (String × String))
    (hh : c.contextHandle = none) (hd : c.contextDevices = none)
    (hcalls : c.calls = []) (hnc : eng.newContext = .ok h) :
    (c.serverDef.isSome = true → c.collectiveOpsServerDef.isSome = true →
      ∃ c', initHandleAndDevices eng c = .error (.conflictingServerConfig, c')) ∧
    (eng.setServerDef = .ok () → eng.enableCollectiveOps = .ok () →
     eng.listDevices = .ok ds →
     ¬(c.serverDef.isSome = true ∧ c.collectiveOpsServerDef.isSome = true) →
      ∃ c', initHandleAndDevices eng c = .ok c' ∧
        c'.calls.filter
            (fun x => decide (x = EngineCall.setServerDef ∨
                              x = EngineCall.enableCollectiveOps))
          = (if c.serverDef.isSome then [EngineCall.setServerDef]
             else if c.collectiveOpsServerDef.isSome then
               [EngineCall.enableCollectiveOps]
             else [])) := by
  constructor
  · intro hsd hco
    simp only [initHandleAndDevices, hh, hd, hnc, hsd, hco,
      Option.isSome_none, Bool.false_eq_true, if_false, Bool.and_self, if_true]
    exact ⟨_, rfl⟩
  · intro hssd heco hld hnot
    cases hsd : c.serverDef with
    | some sd =>
      cases hco : c.collectiveOpsServerDef with
      | some co => exact absurd ⟨by rw [hsd]; rfl, by rw [hco]; rfl⟩ hnot
      | none =>
        simp only [initHandleAndDevices, initDevices, hh, hd, hnc, hsd, hco,
          hcalls, hssd, heco, hld, Option.isSome_none, Option.isSome_some,
          Bool.false_eq_true, if_false, if_true]
        simp
    | none =>
      cases hco : c.collectiveOpsServerDef with
      | some co =>
        simp only [initHandleAndDevices, initDevices, hh, hd, hnc, hsd, hco,
          hcalls, hssd, heco, hld, Option.isSome_none, Option.isSome_some,
          Bool.false_eq_true, if_false, if_true]
        simp
      | none =>
        simp only [initHandleAndDevices, initDevices, hh, hd, hnc, hsd, hco,
          hcalls, hssd, heco, hld, Option.isSome_none, Option.isSome_some,
          Bool.false_eq_true, if_false, if_true]
        simp

/-- A context with both server definitions staged. -/
def ctxBoth : CtxState :=
  { ctx0 with serverDef := some 10, collectiveOpsServerDef := some 11 }

/-- C9 witness: the conflict case and the remote-precedence case at
concrete inputs. -/
theorem init_server_def_exclusive_witness :
    (∃ c', initHandleAndDevices engOk ctxBoth =
        .error (.conflictingServerConfig, c')) ∧
    (∃ c', initHandleAndDevices engOk { ctx0 with serverDef := some 10 } = .ok c' ∧
      c'.calls.filter
          (fun x => decide (x = EngineCall.setServerDef ∨
                            x = EngineCall.enableCollectiveOps))
        = [EngineCall.setServerDef]) := by
  constructor
  · exact (init_server_def_exclusive engOk ctxBoth 1
      [("/job:localhost/replica:0/task:0/device:CPU:0", "CPU")]
      (by decide) (by decide) (by decide) (by decide)).1 (by decide) (by decide)
  · have h2 := (init_server_def_exclusive engOk { ctx0 with serverDef := some 10 } 1
      [("/job:localhost/replica:0/task:0/device:CPU:0", "CPU")]
      (by decide) (by decide) (by decide) (by decide)).2
      (by decide) (by decide) (by decide) (by decide)
    simpa using h2

/-- C4: each startup-only knob (GPU memory fraction, GPU memory
growth, intra-op threads, inter-op threads, log placement) raises the
already-initialized error when set after the handle is realized — the
raise precedes any mutation, so the staged delta is unchanged — and
when set before realization it succeeds and the new value shows up in
the next `Context.config` result. -/
theorem startup_knobs (g : GlobalState) (f : Int) (b : Bool) (n m : Int)
    (lb : Bool) :
    (g.ctx.contextHandle.isSome = true →
      setGpuPerProcessMemoryFraction g f = .error .alreadyInitialized ∧
      setGpuPerProcessMemoryGrowth g b = .error .alreadyInitialized ∧
      setIntraOpParallelismThreads g n = .error .alreadyInitialized ∧
      setInterOpParallelismThreads g m = .error .alreadyInitialized ∧
      setLogDevicePlacement g lb = .error .alreadyInitialized) ∧
    (g.ctx.contextHandle = none →
      (∃ g', setGpuPerProcessMemoryFraction g f = .ok g' ∧
        (configOf g').gpuOptions.perProcessGpuMemoryFraction = f) ∧
      (∃ g', setGpuPerProcessMemoryGrowth g b = .ok g' ∧
        (configOf g').gpuOptions.allowGrowth = b) ∧
      (∃ g', setIntraOpParallelismThreads g n = .ok g' ∧
        (configOf g').intraOpParallelismThreads = n) ∧
      (∃ g', setInterOpParallelismThreads g m = .ok g' ∧
        (configOf g').interOpParallelismThreads = m) ∧
      (∃ g', setLogDevicePlacement g lb = .ok g' ∧
        (configOf g').logDevicePlacement = lb)) := by
  constructor
  · intro h
    refine ⟨?_, ?_, ?_, ?_, ?_⟩ <;>
      simp [setGpuPerProcessMemoryFraction, setGpuPerProcessMemoryGrowth,
        setIntraOpParallelismThreads, setInterOpParallelismThreads,
        setLogDevicePlacement, h]
  · intro h
    have h' : g.ctx.contextHandle.isSome = false := by simp [h]
    refine
      ⟨⟨{ g with ctx := { g.ctx with gpuPerProcessMemoryFraction := some f } },
         ?_, ?_⟩,
       ⟨{ g with ctx := { g.ctx with gpuPerProcessMemoryGrowth := some b } },
         ?_, ?_⟩,
       ⟨{ g with ctx := { g.ctx with intraOpParallelismThreads := some n } },
         ?_, ?_⟩,
       ⟨{ g with ctx := { g.ctx with interOpParallelismThreads := some m } },
         ?_, ?_⟩,
       ⟨{ g with ctx := { g.ctx with logDevicePlacement := some lb },
                 tl := { g.tl with functionCallOptions := none } },
         ?_, ?_⟩⟩ <;>
      simp [setGpuPerProcessMemoryFraction, setGpuPerProcessMemoryGrowth,
        setIntraOpParallelismThreads, setInterOpParallelismThreads,
        setLogDevicePlacement, h', configOf, contextConfig]

/-- A world whose handle has already been realized. -/
def gInit : GlobalState :=
  { g0 with ctx := { ctx0 with contextHandle := some 1,
                               contextDevices := some ["/job:localhost/replica:0/task:0/device:CPU:0"] } }

/-- C4 witness: after realization the intra-op setter raises and
before realization it succeeds and is reflected in the config. -/
theorem startup_knobs_witness :
    setIntraOpParallelismThreads gInit 3 = .error .alreadyInitialized ∧
    (∃ g', setIntraOpParallelismThreads g0 3 = .ok g' ∧
      (configOf g').intraOpParallelismThreads = 3) :=
  ⟨((startup_knobs gInit 0 false 3 3 false).1 (by decide)).2.2.1,
   ((startup_knobs g0 0 false 3 3 false).2 (by decide)).2.2.1⟩

/-- No runtime delta has been staged on this context. -/
def deltasUnset (c : CtxState) : Prop :=
  c.gpuPerProcessMemoryFraction = none ∧
  c.gpuPerProcessMemoryGrowth = none ∧
  c.optimizerJit = none ∧
  c.intraOpParallelismThreads = none ∧
  c.interOpParallelismThreads = none ∧
  c.softDevicePlacement = none ∧
  c.logDevicePlacement = none ∧
  c.optimizerExperimentalOptions = noOpts

/-- C7: `Context.config` is a pure function of the staged state and
the calling thread's eager flag (it is embedded as a Lean function, so
invoking it has no effect on any state); deltas never set leave the
base config untouched — with all deltas unset the result is exactly the
base config with only `allow_soft_placement` defaulted to the eager
flag — and setting the unrelated log-placement override changes no
other field of the result. -/
theorem config_no_crosstalk (g : GlobalState) (b : Bool) :
    (deltasUnset g.ctx →
      configOf g =
        { g.ctx.baseConfig.getD defaultConfig with
            allowSoftPlacement := g.tl.isEager }) ∧
    (∀ g', setLogDevicePlacement g b = .ok g' →
      (configOf g').gpuOptions = (configOf g).gpuOptions ∧
      (configOf g').graphOptions = (configOf g).graphOptions ∧
      (configOf g').intraOpParallelismThreads =
        (configOf g).intraOpParallelismThreads ∧
      (configOf g').interOpParallelismThreads =
        (configOf g).interOpParallelismThreads ∧
      (configOf g').allowSoftPlacement = (configOf g).allowSoftPlacement ∧
      (configOf g').logDevicePlacement = b) := by
  constructor
  · rintro ⟨h1, h2, h3, h4, h5, h6, h7, h8⟩
    simp [configOf, contextConfig, applyRewrite, rewriterToggle,
      h1, h2, h3, h4, h5, h6, h7, h8, noOpts]
  · intro g' hset
    unfold setLogDevicePlacement at hset
    split at hset
    · exact absurd hset (by simp)
    · cases hset
      refine ⟨rfl, rfl, rfl, rfl, rfl, ?_⟩
      simp [configOf, contextConfig]

/-- The fresh world after staging only the log-placement override. -/
def gLog : GlobalState :=
  { g0 with ctx := { ctx0 with logDevicePlacement := some true },
            tl := { tl0 with functionCallOptions := none } }

/-- C7 witness: the two parts at a concrete fresh world. -/
theorem config_no_crosstalk_witness :
    (configOf g0 = { defaultConfig with allowSoftPlacement := true }) ∧
    ((configOf gLog).gpuOptions = (configOf g0).gpuOptions ∧
     (configOf gLog).graphOptions = (configOf g0).graphOptions ∧
     (configOf gLog).intraOpParallelismThreads =
       (configOf g0).intraOpParallelismThreads ∧
     (configOf gLog).interOpParallelismThreads =
       (configOf g0).interOpParallelismThreads ∧
     (configOf gLog).allowSoftPlacement = (configOf g0).allowSoftPlacement ∧
     (configOf gLog).logDevicePlacement = true) := by
  constructor
  · have h := (config_no_crosstalk g0 true).1
      ⟨rfl, rfl, rfl, rfl, rfl, rfl, rfl, rfl⟩
    simpa [g0, tl0] using h
  · exact (config_no_crosstalk g0 true).2 gLog (by decide)

/-- C1: for any thread state and any scoped body — hence any nesting
depth, a nested scope being just one particular body — if entry
succeeded and the body left the installed spec object in place (it did
not replace the thread's installed device spec), then on every exit
path (normal return or a body exception, which propagates) the scope
restores the thread-local device name and spec to exactly the prior
pair. -/
theorem device_scope_restores {ε : Type} (eng : Engine) (g : GlobalState)
    (name : Option String) (body : GlobalState → BodyOutcome ε × GlobalState)
    (nm : String) (obj : SpecObj) (g1 g2 : GlobalState) (outcome : BodyOutcome ε)
    (hres : resolveInstall eng g name = .ok ((nm, obj), g1))
    (hbody : body (installDev g1 nm obj) = (outcome, g2))
    (hid : g2.tl.deviceSpec.id = obj.id) :
    deviceScope eng g name body =
      (match outcome with
       | .normal => ScopeResult.normal (restoreDev g2 g)
       | .raised e => ScopeResult.bodyRaised e (restoreDev g2 g)) ∧
    (restoreDev g2 g).tl.deviceName = g.tl.deviceName ∧
    (restoreDev g2 g).tl.deviceSpec = g.tl.deviceSpec := by
  refine ⟨?_, rfl, rfl⟩
  unfold deviceScope
  rw [hres]
  simp only [hbody, hid, if_pos rfl]
  cases outcome <;> rfl

/-- A body that returns normally and leaves the state alone. -/
def bodyKeep : GlobalState → BodyOutcome Unit × GlobalState :=
  fun g => (BodyOutcome.normal, g)

/-- The resolved world after entering a `device(None)` scope from the
fresh world: the reset pair was computed and cached. -/
def gW1 : GlobalState :=
  { g0 with nextId := 2,
            cache := [(("", none), ("", { id := 1, spec := DeviceSpec.empty }))] }

/-- The state as the well-behaved body leaves it. -/
def gW2 : GlobalState := installDev gW1 "" { id := 1, spec := DeviceSpec.empty }

/-- C1 witness: the theorem at the fresh world with a well-behaved
body. -/
theorem device_scope_restores_witness :
    deviceScope engOk g0 none bodyKeep = ScopeResult.normal (restoreDev gW2 g0) ∧
    (restoreDev gW2 g0).tl.deviceName = g0.tl.deviceName ∧
    (restoreDev gW2 g0).tl.deviceSpec = g0.tl.deviceSpec :=
  device_scope_restores engOk g0 none bodyKeep ""
    { id := 1, spec := DeviceSpec.empty } gW1 gW2 BodyOutcome.normal
    (by decide) rfl (by decide)

/-- C6: if at scope exit the thread's installed device spec is no
longer the exact object this scope installed, exiting raises the
unbalanced-scope `RuntimeError` (superseding even a body exception) and
performs no restore — the misuse is surfaced, not silently
corrected. -/
theorem device_scope_unbalanced {ε : Type} (eng : Engine) (g : GlobalState)
    (name : Option String) (body : GlobalState → BodyOutcome ε × GlobalState)
    (nm : String) (obj : SpecObj) (g1 g2 : GlobalState) (outcome : BodyOutcome ε)
    (hres : resolveInstall eng g name = .ok ((nm, obj), g1))
    (hbody : body (installDev g1 nm obj) = (outcome, g2))
    (hid : g2.tl.deviceSpec.id ≠ obj.id) :
    deviceScope eng g name body = ScopeResult.scopeError .unbalancedScope g2 := by
  unfold deviceScope
  rw [hres]
  simp only [hbody]
  rw [if_neg hid]

/-- A misbehaving body: it replaces the installed device spec with a
different object and then returns normally. -/
def bodySwap : GlobalState → BodyOutcome Unit × GlobalState :=
  fun g =>
    (BodyOutcome.normal,
     { g with tl := { g.tl with deviceSpec := { id := 77, spec := DeviceSpec.empty } } })

/-- The state the misbehaving body leaves behind. -/
def gW3 : GlobalState :=
  { gW2 with tl := { gW2.tl with deviceSpec := { id := 77, spec := DeviceSpec.empty } } }

/-- C6 witness: the theorem at the fresh world with the misbehaving
body. -/
theorem device_scope_unbalanced_witness :
    deviceScope engOk g0 none bodySwap =
      ScopeResult.scopeError .unbalancedScope gW3 :=
  device_scope_unbalanced engOk g0 none bodySwap ""
    { id := 1, spec := DeviceSpec.empty } gW1 gW3 BodyOutcome.normal
    (by decide) rfl (by decide)

/-- A device spec naming only a job. -/
def specWorker : DeviceSpec :=
  { job := some "worker", replica := none, task := none,
    deviceType := none, deviceIndex := none }

/-- A world whose thread has the worker device installed. -/
def gWorker : GlobalState :=
  { tl := { deviceName := "/job:worker", deviceSpec := { id := 0, spec := specWorker },
            isEager := true, functionCallOptions := none },
    cache := [], nextId := 1, ctx := ctx0 }

/-- C3 counterexample: requesting the empty string is not a reset.
With `/job:worker` installed, `device("")` goes down the
`name is not None` branch, parses the empty partial spec, and merges it
onto a copy of the installed spec — the merged spec is the worker spec
again and the merged name is `/job:worker`, not the fully-empty spec
and the empty string the claim requires. -/
theorem empty_name_not_reset_counterexample :
    resolveInstall engOk gWorker (some "") =
      .ok (("/job:worker", { id := 1, spec := specWorker }),
           { gWorker with
               nextId := 2,
               cache := [(("/job:worker", some ""),
                          ("/job:worker", { id := 1, spec := specWorker }))] }) ∧
    specWorker ≠ DeviceSpec.empty ∧
    ("/job:worker" : String) ≠ "" := by decide

/-- C3 (amended): only a requested name of `None` is the manual scope
reset — on a placement-cache miss for that key the merged spec is the
fully-empty spec and the merged name is the empty string, regardless of
the previously active pair; a requested empty string is instead parsed
as an empty partial spec and merged onto the current base, preserving
the installed device when one is set. -/
theorem none_name_resets (eng : Engine) (g : GlobalState)
    (hmiss : cacheLookup g.cache (g.tl.deviceName, none) = none) :
    ∃ obj g', resolveInstall eng g none = .ok (("", obj), g') ∧
      obj.spec = DeviceSpec.empty := by
  refine ⟨{ id := g.nextId, spec := DeviceSpec.empty },
    { g with
        nextId := g.nextId + 1,
        cache := ((g.tl.deviceName, none),
                  ("", { id := g.nextId, spec := DeviceSpec.empty })) :: g.cache },
    ?_, rfl⟩
  unfold resolveInstall
  rw [hmiss]
  rfl

/-- C3 witness: the amended statement at the worker world. -/
theorem none_name_resets_witness :
    ∃ obj g', resolveInstall engOk gWorker none = .ok (("", obj), g') ∧
      obj.spec = DeviceSpec.empty :=
  none_name_resets engOk gWorker (by decide)

/-- C8: resolving a requested device against the same installed base a
second time yields exactly the same merged `(name, spec)` pair — on a
cache miss the computed pair is stored under the key, and the second
resolution's cache hit returns precisely the value a fresh computation
produced, so the unsynchronized placement cache is write-idempotent. -/
theorem resolve_cache_idempotent (eng : Engine) (g : GlobalState)
    (name : Option String) (nm : String) (obj : SpecObj) (g' : GlobalState)
    (hmiss : cacheLookup g.cache (g.tl.deviceName, name) = none)
    (h : resolveInstall eng g name = .ok ((nm, obj), g')) :
    resolveInstall eng g' name = .ok ((nm, obj), g') := by
  unfold resolveInstall at h
  cases name with
  | none =>
    simp only [hmiss] at h
    cases hfs : DeviceSpec.fromString "" with
    | error e => rw [hfs] at h; cases h
    | ok sp =>
      rw [hfs] at h
      cases h
      simp [resolveInstall, cacheLookup]
  | some s =>
    simp only [hmiss] at h
    cases hfs : DeviceSpec.fromString s with
    | error e => simp only [hfs] at h; cases h
    | ok requested =>
      simp only [hfs] at h
      unfold acquireBase at h
      by_cases hold : g.tl.deviceName ≠ ""
      · simp only [if_pos hold] at h
        cases h
        simp [resolveInstall, cacheLookup, hfs]
      · simp only [if_neg hold] at h
        cases hinit : initHandleAndDevices eng g.ctx with
        | error ec =>
          obtain ⟨ec1, ec2⟩ := ec
          simp only [hinit] at h
          cases h
        | ok c' =>
          simp only [hinit] at h
          cases hds : c'.contextDevices with
          | none => simp only [hds] at h; cases h
          | some ds =>
            cases ds with
            | nil => simp only [hds] at h; cases h
            | cons d0 rest =>
              simp only [hds] at h
              cases hfd : DeviceSpec.fromString d0 with
              | error e => simp only [hfd] at h; cases h
              | ok sp =>
                simp only [hfd] at h
                cases h
                simp [resolveInstall, cacheLookup, hfs]

/-- The worker spec with a task requested on top. -/
def specWorkerTask : DeviceSpec :=
  { job := some "worker", replica := none, task := some 3,
    deviceType := none, deviceIndex := none }

/-- The world after resolving `/task:3` against the worker base once:
the computed pair sits in the placement cache. -/
def gW8 : GlobalState :=
  { gWorker with
      nextId := 2,
      cache := [(("/job:worker", some "/task:3"),
                 ("/job:worker/task:3", { id := 1, spec := specWorkerTask }))] }

/-- C8 witness: resolving `/task:3` against `/job:worker` a second time
returns exactly the pair the first (miss) resolution computed. -/
theorem resolve_cache_idempotent_witness :
    resolveInstall engOk gW8 (some "/task:3") =
      .ok (("/job:worker/task:3", { id := 1, spec := specWorkerTask }), gW8) :=
  resolve_cache_idempotent engOk gWorker (some "/task:3") "/job:worker/task:3"
    { id := 1, spec := specWorkerTask } gW8 (by decide) (by decide)

/-- Assigning a fresh key appends it at the end of the order. -/
theorem odSet_fresh (l : List (Nat × Tensor)) (k : Nat) (v : Tensor)
    (h : ∀ p ∈ l, p.1 ≠ k) : odSet l k v = l ++ [(k, v)] := by
  induction l with
  | nil => rfl
  | cons x t ih =>
    obtain ⟨k', v'⟩ := x
    unfold odSet
    rw [if_neg (h (k', v') (by simp))]
    rw [ih (fun p hp => h p (by simp [hp]))]
    rfl

/-- Assigning a present key does not change the key order. -/
theorem odSet_map_fst_mem (l : List (Nat × Tensor)) (k : Nat) (v : Tensor)
    (h : k ∈ l.map Prod.fst) :
    (odSet l k v).map Prod.fst = l.map Prod.fst := by
  induction l with
  | nil => cases h
  | cons x t ih =>
    obtain ⟨k', v'⟩ := x
    unfold odSet
    by_cases hk : k' = k
    · rw [if_pos hk]
      simp [hk]
    · rw [if_neg hk]
      have ht : k ∈ t.map Prod.fst := by
        rcases List.mem_map.mp h with ⟨q, hq, hq1⟩
        rcases List.mem_cons.mp hq with rfl | hq'
        · exact absurd hq1 hk
        · exact List.mem_map.mpr ⟨q, hq', hq1⟩
      simp [ih ht]

/-- After an assignment, the first entry found for the key is the
assigned one. -/
theorem odSet_find_self (l : List (Nat × Tensor)) (k : Nat) (v : Tensor) :
    (odSet l k v).find? (fun p => p.1 == k) = some (k, v) := by
  induction l with
  | nil => simp [odSet]
  | cons x t ih =>
    obtain ⟨k', v'⟩ := x
    unfold odSet
    by_cases hk : k' = k
    · rw [if_pos hk]
      simp
    · rw [if_neg hk]
      have hb : (k' == k) = false := by simpa using hk
      simp [List.find?, hb, ih]

/-- `put` never changes the configured capacity. -/
theorem put_maxItems (c : EagerTensorCache) (k : Nat) (v : Tensor) :
    (c.put k v).maxItems = c.maxItems := by
  unfold EagerTensorCache.put
  split <;> rfl

/-- `put` never changes the configured admission threshold. -/
theorem put_maxTensorSize (c : EagerTensorCache) (k : Nat) (v : Tensor) :
    (c.put k v).maxTensorSize = c.maxTensorSize := by
  unfold EagerTensorCache.put
  split <;> rfl

/-- Insert a whole list of key/value pairs in order. -/
def putAll (c : EagerTensorCache) (l : List (Nat × Tensor)) : EagerTensorCache :=
  l.foldl (fun c p => c.put p.1 p.2) c

/-- Dropping the displaced head commutes with appending. -/
theorem drop_one_append (l : List (Nat × Tensor)) (x : Nat × Tensor)
    (r : List (Nat × Tensor)) :
    ((l ++ [x]).drop 1) ++ r = (l ++ x :: r).drop 1 := by
  cases l with
  | nil => simp
  | cons a t => simp

/-- Strict-FIFO behaviour of a run of admissible fresh-key inserts:
starting within capacity, the retained entries are exactly the suffix
of the insertion sequence that fits, i.e. the oldest entries are
evicted one per overflowing insert. -/
theorem putAll_fifo (l : List (Nat × Tensor)) : ∀ c : EagerTensorCache,
    c.data.length ≤ c.maxItems →
    ((c.data ++ l).map Prod.fst).Nodup →
    (∀ p ∈ l, p.2.numElements ≤ c.maxTensorSize) →
    (putAll c l).data = (c.data ++ l).drop (c.data.length + l.length - c.maxItems) := by
  induction l with
  | nil =>
    intro c h1 _ _
    simp [putAll, Nat.sub_eq_zero_of_le h1]
  | cons p rest ih =>
    intro c h1 h2 h3
    obtain ⟨k, v⟩ := p
    have hadm : v.numElements ≤ c.maxTensorSize := h3 (k, v) (by simp)
    have hfresh : ∀ q ∈ c.data, q.1 ≠ k := by
      intro q hq hqk
      have hk : k ∈ c.data.map Prod.fst := List.mem_map.mpr ⟨q, hq, hqk⟩
      have := (List.nodup_append.mp (by simpa using h2)).2.2
      exact this hk (by simp)
    have hod : odSet c.data k v = c.data ++ [(k, v)] := odSet_fresh _ _ _ hfresh
    have hput : (c.put k v).data =
        if c.data.length + 1 > c.maxItems then (c.data ++ [(k, v)]).drop 1
        else c.data ++ [(k, v)] := by
      unfold EagerTensorCache.put
      rw [if_neg (by omega), hod]
      simp
    have hpa : putAll c ((k, v) :: rest) = putAll (c.put k v) rest := rfl
    by_cases hfull : c.data.length + 1 > c.maxItems
    · have hmax : c.data.length = c.maxItems := by omega
      have hdata : (c.put k v).data = (c.data ++ [(k, v)]).drop 1 := by
        rw [hput, if_pos hfull]
      have hlen : (c.put k v).data.length = c.maxItems := by
        rw [hdata]
        simp [hmax]
      have happ : (c.put k v).data ++ rest = (c.data ++ (k, v) :: rest).drop 1 := by
        rw [hdata]
        exact drop_one_append _ _ _
      rw [hpa, ih (c.put k v)
        (by rw [put_maxItems, hlen])
        (by rw [happ]
            have hnd : ((c.data ++ (k, v) :: rest).map Prod.fst).Nodup := h2
            rw [List.map_drop]
            exact List.Nodup.sublist (List.drop_sublist _ _) hnd)
        (by intro q hq
            rw [put_maxTensorSize]
            exact h3 q (by simp [hq]))]
      rw [happ, List.drop_drop, put_maxItems, hlen]
      congr 1
      simp [hmax]
      omega
    · have hdata : (c.put k v).data = c.data ++ [(k, v)] := by
        rw [hput, if_neg hfull]
      have happ : (c.put k v).data ++ rest = c.data ++ (k, v) :: rest := by
        rw [hdata]
        simp
      rw [hpa, ih (c.put k v)
        (by rw [put_maxItems, hdata]; simp; omega)
        (by rw [happ]; exact h2)
        (by intro q hq
            rw [put_maxTensorSize]
            exact h3 q (by simp [hq]))]
      rw [happ, put_maxItems, hdata]
      congr 1
      simp
      omega

/-- A value over the default admission threshold (20,000 elements
against a threshold of 10,000). -/
def bigTensor : Tensor := { numElements := 20000, payload := 99 }

/-- A cache already holding an admissible value at key 1. -/
def cacheOne : EagerTensorCache :=
  { data := [(1, { numElements := 5, payload := 0 })],
    maxItems := 256, maxTensorSize := 10000 }

/-- C5 counterexample: an over-threshold `put` on a key that is already
present is indeed a no-op, but a subsequent `get` on that key returns
the previously stored value, not absent — the claim's parenthetical
"a subsequent get on that key returns absent" fails whenever the key
was already present. -/
theorem oversize_put_get_counterexample :
    (cacheOne.put 1 bigTensor).get 1 = some { numElements := 5, payload := 0 } ∧
    some ({ numElements := 5, payload := 0 } : Tensor) ≠ none ∧
    bigTensor.numElements > cacheOne.maxTensorSize := by decide

/-- C5 (amended): `put` silently drops an over-threshold value,
leaving the cache unchanged — so a subsequent `get` on that key returns
absent provided the key was not already present; an admissible `put` on
a fresh key appends it, and when the cache was full it evicts exactly
the single oldest entry, never the just-inserted one; consequently a
run of admissible fresh-key inserts retains exactly the most recent
`maxItems` entries in insertion order (e.g. 300 inserts into a
capacity-256 cache keep the last 256 and evict the 44 oldest). -/
theorem bounded_cache_put_contract (c : EagerTensorCache) (k : Nat) (v : Tensor)
    (l : List (Nat × Tensor)) :
    (v.numElements > c.maxTensorSize → c.put k v = c) ∧
    (v.numElements > c.maxTensorSize → c.get k = none → (c.put k v).get k = none) ∧
    (v.numElements ≤ c.maxTensorSize → (∀ p ∈ c.data, p.1 ≠ k) →
      c.data.length < c.maxItems → (c.put k v).data = c.data ++ [(k, v)]) ∧
    (v.numElements ≤ c.maxTensorSize → (∀ p ∈ c.data, p.1 ≠ k) →
      c.data.length = c.maxItems → 0 < c.maxItems →
      (c.put k v).data = c.data.drop 1 ++ [(k, v)]) ∧
    (c.data.length ≤ c.maxItems →
      ((c.data ++ l).map Prod.fst).Nodup →
      (∀ p ∈ l, p.2.numElements ≤ c.maxTensorSize) →
      (putAll c l).data =
        (c.data ++ l).drop (c.data.length + l.length - c.maxItems)) := by
  refine ⟨?_, ?_, ?_, ?_, ?_⟩
  · intro hbig
    unfold EagerTensorCache.put
    rw [if_pos hbig]
  · intro hbig habs
    unfold EagerTensorCache.put
    rw [if_pos hbig]
    exact habs
  · intro hadm hfresh hroom
    unfold EagerTensorCache.put
    rw [if_neg (by omega), odSet_fresh _ _ _ hfresh]
    simp only
    rw [if_neg (by simp; omega)]
  · intro hadm hfresh hfull hpos
    unfold EagerTensorCache.put
    rw [if_neg (by omega), odSet_fresh _ _ _ hfresh]
    simp only
    rw [if_pos (by simp; omega)]
    cases hd : c.data with
    | nil => rw [hd] at hfull; simp at hfull; omega
    | cons a t => simp
  · exact putAll_fifo l c

/-- The 300 distinct admissible insertions of the claim's example. -/
def keys300 : List (Nat × Tensor) :=
  (List.range 300).map (fun i => (i, { numElements := 1, payload := i }))

/-- C5 witness: the no-op and absent-get parts at concrete inputs, and
the 300-into-256 run keeping exactly the 256 most recent entries. -/
theorem bounded_cache_put_contract_witness :
    cacheOne.put 1 bigTensor = cacheOne ∧
    (EagerTensorCache.fresh.put 9 bigTensor).get 9 = none ∧
    (putAll EagerTensorCache.fresh keys300).data = keys300.drop 44 := by
  refine ⟨?_, ?_, ?_⟩
  · exact (bounded_cache_put_contract cacheOne 1 bigTensor []).1 (by decide)
  · exact (bounded_cache_put_contract EagerTensorCache.fresh 9 bigTensor []).2.1
      (by decide) (by decide)
  · have hk : (EagerTensorCache.fresh.data ++ keys300).map Prod.fst =
        List.range 300 := by
      simp only [keys300, EagerTensorCache.fresh, List.nil_append, List.map_map]
      exact List.map_id _
    have h := (bounded_cache_put_contract EagerTensorCache.fresh 0 bigTensor
        keys300).2.2.2.2
      (by simp [EagerTensorCache.fresh])
      (by rw [hk]; exact List.nodup_range 300)
      (by intro p hp
          simp only [keys300, List.mem_map] at hp
          obtain ⟨i, _, rfl⟩ := hp
          simp [EagerTensorCache.fresh])
    have hlen : keys300.length = 300 := by simp [keys300]
    rw [h, hlen]
    simp [EagerTensorCache.fresh]

/-- C10: an admissible `put` on a key that is already present
overwrites the stored value in place — the key keeps the position of
its first insertion (the key order is unchanged), the size is
unchanged, and no eviction is triggered. -/
theorem cache_overwrite_keeps_position (c : EagerTensorCache) (k : Nat)
    (v : Tensor)
    (hadm : v.numElements ≤ c.maxTensorSize)
    (hmem : k ∈ c.data.map Prod.fst)
    (hlen : c.data.length ≤ c.maxItems) :
    (c.put k v).data.map Prod.fst = c.data.map Prod.fst ∧
    (c.put k v).get k = some v ∧
    (c.put k v).data.length = c.data.length := by
  have hfst : (odSet c.data k v).map Prod.fst = c.data.map Prod.fst :=
    odSet_map_fst_mem _ _ _ hmem
  have hlen2 : (odSet c.data k v).length = c.data.length := by
    have := congrArg List.length hfst
    simpa using this
  have hdata : (c.put k v).data = odSet c.data k v := by
    unfold EagerTensorCache.put
    rw [if_neg (by omega)]
    simp only
    rw [if_neg (by omega)]
  refine ⟨by rw [hdata]; exact hfst, ?_, by rw [hdata]; exact hlen2⟩
  show (c.put k v).get k = some v
  unfold EagerTensorCache.get
  rw [hdata, odSet_find_self]

/-- A two-entry cache for the overwrite witness. -/
def cacheTwo : EagerTensorCache :=
  { data := [(1, { numElements := 5, payload := 0 }),
             (2, { numElements := 6, payload := 1 })],
    maxItems := 256, maxTensorSize := 10000 }

/-- C10 witness: overwriting key 1 keeps the key order `[1, 2]`, stores
the new value, and evicts nothing. -/
theorem cache_overwrite_keeps_position_witness :
    (cacheTwo.put 1 { numElements := 7, payload := 9 }).data.map Prod.fst =
      cacheTwo.data.map Prod.fst ∧
    (cacheTwo.put 1 { numElements := 7, payload := 9 }).get 1 =
      some { numElements := 7, payload := 9 } ∧
    (cacheTwo.put 1 { numElements := 7, payload := 9 }).data.length =
      cacheTwo.data.length :=
  cache_overwrite_keeps_position cacheTwo 1 { numElements := 7, payload := 9 }
    (by decide) (by decide) (by decide)

end EagerCtx
